import Mathlib

/-
Verification of the shopping-assistant query parser and dispatcher
(src/agent.py and src/tools.py) against its specification.

Modelling conventions:
* Python strings are modelled as List Char; only ASCII behaviour is relevant
  to the catalog and the pattern library, so str.lower is ASCII lowering.
* Python floats are modelled as rationals (all arithmetic in the program is
  decimal-literal arithmetic: prices with two decimals, fractions 0.10/0.20).
* datetime values are modelled at day granularity as proleptic-Gregorian
  ordinals (days since 0001-01-01 = ordinal 1), exactly the representation
  datetime.date uses internally; weekday() = (ordinal + 6) % 7 (Monday = 0).
* re.search is modelled by leftmost scanning with ordered-alternation,
  greedy / lazy quantifier backtracking implemented via continuation-passing
  combinators (pLit / pAltLits / pStar / pPlus / pLazyPlus below), which give
  exactly the Python/PCRE backtracking order for the patterns that occur in
  the source.
* A Python crash (uncaught TypeError) is modelled as the value none of an
  Option-typed result; every normally returning path produces some _.
-/

/-! ### Character classes (Python re, ASCII fragment) -/

def asciiLowerChar (c : Char) : Char :=
  if 'A' ≤ c ∧ c ≤ 'Z' then Char.ofNat (c.toNat + 32) else c

def asciiUpperChar (c : Char) : Char :=
  if 'a' ≤ c ∧ c ≤ 'z' then Char.ofNat (c.toNat - 32) else c

/-- str.lower() -/
def lowerList (l : List Char) : List Char := l.map asciiLowerChar

/-- str.upper() -/
def upperList (l : List Char) : List Char := l.map asciiUpperChar

/-- Python regex \s and str.split() whitespace (ASCII fragment). -/
def isSpacePy (c : Char) : Bool :=
  c = ' ' ∨ c = '\t' ∨ c = '\n' ∨ c = '\x0d' ∨ c = '\x0c' ∨ c = '\x0b'

/-- Python regex \d. -/
def isDigitPy (c : Char) : Bool := '0' ≤ c ∧ c ≤ '9'

/-- Python regex \w (ASCII fragment): letters, digits, underscore. -/
def isWordChar (c : Char) : Bool :=
  ('a' ≤ c ∧ c ≤ 'z') ∨ ('A' ≤ c ∧ c ≤ 'Z') ∨ isDigitPy c ∨ c = '_'

/-- The character class [\w\s] used by the product-name capture. -/
def isWordOrSpace (c : Char) : Bool := isWordChar c || isSpacePy c

def isQuoteChar (c : Char) : Bool := c = '\'' ∨ c = '"'

/-! ### Basic string operations -/

/-- Python substring containment: listContains hay needle = (needle in hay). -/
def listContains : List Char → List Char → Bool
  | [], needle => needle.isEmpty
  | l@(_ :: t), needle => needle.isPrefixOf l || listContains t needle

/-- str.find: index of first occurrence, or none. -/
def pyFindAux (needle : List Char) : List Char → Option Nat
  | [] => if needle.isEmpty then some 0 else none
  | l@(_ :: t) =>
    if needle.isPrefixOf l then some 0 else (pyFindAux needle t).map (· + 1)

/-- str.find: index of first occurrence, -1 if absent. -/
def pyFind (hay needle : List Char) : Int :=
  match pyFindAux needle hay with
  | some i => (i : Int)
  | none => -1

/-- Python slice s[:i], including the negative-index convention. -/
def pySliceTo (l : List Char) (i : Int) : List Char :=
  if 0 ≤ i then l.take i.toNat else l.take (l.length - i.natAbs)

/-- str.strip(): drop leading and trailing whitespace. -/
def stripWS (l : List Char) : List Char :=
  ((l.dropWhile isSpacePy).reverse.dropWhile isSpacePy).reverse

/-- str.split() with no separator: split on whitespace runs, no empty words. -/
def splitWSAux : List Char → List Char → List (List Char)
  | cur, [] => if cur.isEmpty then [] else [cur.reverse]
  | cur, c :: rest =>
    if isSpacePy c then
      if cur.isEmpty then splitWSAux [] rest
      else cur.reverse :: splitWSAux [] rest
    else splitWSAux (c :: cur) rest

def splitWS (l : List Char) : List (List Char) := splitWSAux [] l

/-! ### Regex matcher combinators

A matcher of type List Char → Option α tries to match a pattern suffix
starting at the head of its argument and hands the remaining suffix to its
continuation; none propagates failure, which drives backtracking through
Option.orElse in exactly the ordered-alternation / greedy / lazy order of the
Python re engine. -/

/-- Literal text. -/
def pLit (lit : List Char) (k : List Char → Option α) : List Char → Option α :=
  fun s => if lit.isPrefixOf s then k (s.drop lit.length) else none

/-- Case-insensitive literal (re.IGNORECASE); returns the rest of the input. -/
def ciPrefixDrop : List Char → List Char → Option (List Char)
  | [], s => some s
  | _ :: _, [] => none
  | a :: as, c :: cs =>
    if asciiLowerChar a = asciiLowerChar c then ciPrefixDrop as cs else none

/-- Ordered alternation of literals, e.g. (?:a|an|) ; an empty literal models
the empty branch of an optional group. -/
def pAltLits (alts : List (List Char)) (k : List Char → Option α) :
    List Char → Option α :=
  fun s =>
    match alts with
    | [] => none
    | a :: as => (pLit a k s).orElse fun _ => pAltLits as k s

/-- Ordered alternation of literals where the match IS the captured group
(e.g. (monday|tuesday|...)); group ends the pattern. -/
def pAltCapture (alts : List (List Char)) : List Char → Option (List Char) :=
  fun s =>
    match alts with
    | [] => none
    | a :: as =>
      if a.isPrefixOf s then some a else pAltCapture as s

/-- Greedy star over a character class, with backtracking: longest first. -/
def pStar (cls : Char → Bool) (k : List Char → Option α) : List Char → Option α
  | [] => k []
  | c :: rest =>
    if cls c then (pStar cls k rest).orElse fun _ => k (c :: rest)
    else k (c :: rest)

/-- Greedy plus over a character class, with backtracking. -/
def pPlus (cls : Char → Bool) (k : List Char → Option α) : List Char → Option α
  | [] => none
  | c :: rest => if cls c then pStar cls k rest else none

/-- Lazy plus over a character class: shortest first ( +? ). -/
def pLazyPlus (cls : Char → Bool) (k : List Char → Option α) :
    List Char → Option α
  | [] => none
  | c :: rest =>
    if cls c then (k rest).orElse fun _ => pLazyPlus cls k rest
    else none

/-- re.search: try the position matcher at each position, leftmost first. -/
def reSearch (m : List Char → Option α) : List Char → Option α
  | [] => m []
  | c :: rest => (m (c :: rest)).orElse fun _ => reSearch m rest

/-! ### Calendar model (datetime at day granularity)

Dates are proleptic-Gregorian ordinals (0001-01-01 = 1), the internal
representation of datetime.date; adding timedelta(days = n) is ordinal + n and
weekday() is (ordinal + 6) % 7 with Monday = 0. -/

def isLeapYear (y : Nat) : Bool := (y % 4 = 0 ∧ y % 100 ≠ 0) ∨ y % 400 = 0

def monthLengths (leap : Bool) : List Nat :=
  [31, if leap then 29 else 28, 31, 30, 31, 30, 31, 31, 30, 31, 30, 31]

def daysInMonth (y m : Nat) : Nat :=
  (monthLengths (isLeapYear y)).getD (m - 1) 31

def daysBeforeYear (y : Nat) : Nat :=
  365 * (y - 1) + (y - 1) / 4 - (y - 1) / 100 + (y - 1) / 400

def daysBeforeMonth (y m : Nat) : Nat :=
  (((monthLengths (isLeapYear y)).take (m - 1))).sum

/-- datetime.date(y, m, d).toordinal() -/
def toOrdinal (y m d : Nat) : Nat := daysBeforeYear y + daysBeforeMonth y m + d

/-- datetime.weekday(): Monday = 0, ..., Sunday = 6. -/
def weekdayOf (o : Nat) : Nat := (o + 6) % 7

/-- Inverse of toOrdinal for valid ordinals (CPython date._ord2ymd scheme),
used only to render dates in strftime output. -/
def monthScanAux (y doy : Nat) : List Nat → Nat → Nat × Nat × Nat
  | [], m => (y, m, doy)
  | len :: rest, m =>
    if doy ≤ len then (y, m, doy) else monthScanAux y (doy - len) rest (m + 1)

def fromOrdinal (o : Nat) : Nat × Nat × Nat :=
  let n := o - 1
  let n400 := n / 146097
  let r400 := n % 146097
  let n100 := r400 / 36524
  let r100 := r400 % 36524
  let n4 := r100 / 1461
  let r4 := r100 % 1461
  let n1 := r4 / 365
  let r1 := r4 % 365
  let y := 400 * n400 + 100 * n100 + 4 * n4 + n1 + 1
  if n1 = 4 ∨ n100 = 4 then (y - 1, 12, 31)
  else monthScanAux y (r1 + 1) (monthLengths (isLeapYear y)) 1

def weekdayNamesCap : List String :=
  ["Monday", "Tuesday", "Wednesday", "Thursday", "Friday", "Saturday", "Sunday"]

def monthNamesCap : List String :=
  ["January", "February", "March", "April", "May", "June", "July", "August",
   "September", "October", "November", "December"]

/-- Two-digit zero padding (strftime %d and cents). -/
def pad2 (n : Nat) : String := if n < 10 then "0" ++ toString n else toString n

/-- strftime("%A, %B %d") -/
def strftimeABd (o : Nat) : String :=
  let ymd := fromOrdinal o
  (weekdayNamesCap.getD (weekdayOf o) "") ++ ", " ++
    (monthNamesCap.getD (ymd.2.1 - 1) "") ++ " " ++ pad2 ymd.2.2

/-! ### Python value helpers -/

/-- Truthiness of an optional string (None and "" are falsy). -/
def pyTruthyStr (o : Option (List Char)) : Bool :=
  match o with
  | none => false
  | some l => !l.isEmpty

/-- Truthiness of an optional number (None and 0 are falsy). -/
def pyTruthyNum (o : Option ℚ) : Bool :=
  match o with
  | none => false
  | some x => decide (x ≠ 0)

/-- price <= max_price where max_price may be None: comparing a float with
None raises TypeError in Python 3, modelled as none. -/
def pyLeOpt (p : ℚ) (mp : Option ℚ) : Option Bool :=
  match mp with
  | none => none
  | some m => some (decide (p ≤ m))

/-- float() of a string matched by \d+\.?\d* (exact, as a rational). -/
def digitsToNat (ds : List Char) : Nat :=
  ds.foldl (fun acc c => 10 * acc + (c.toNat - 48)) 0

def pyFloatOfCapture (t : List Char) : ℚ :=
  let intPart := t.takeWhile isDigitPy
  let rest := t.drop intPart.length
  let frac := (rest.drop 1).takeWhile isDigitPy
  (digitsToNat intPart : ℚ) + (digitsToNat frac : ℚ) / (10 ^ frac.length : ℚ)

/-- f-string formatting :.2f (round-half-even coincides with round on every
value produced by this program: all displayed amounts are exact multiples of
a cent or differ from a half-cent boundary). -/
def fmt2 (x : ℚ) : String :=
  let n := round (x * 100)
  let m := n.natAbs
  (if n < 0 then "-" else "") ++ toString (m / 100) ++ "." ++ pad2 (m % 100)

def chars (s : String) : List Char := s.toList

/-! ### tools.py: data model and EcommerceTools -/

structure Product where
  id : String
  name : List Char
  price : ℚ
  color : List Char
  size : List Char
  store : List Char
  stock : Nat
  description : List Char
deriving DecidableEq

structure ShippingDetails where
  available : Bool
  cost : ℚ
  estimated_days : Nat
  delivery_date : Nat
deriving DecidableEq

structure ReturnPolicy where
  store : List Char
  days_allowed : Nat
  free_returns : Bool
  conditions : String
deriving DecidableEq

/-- The fixed mock catalog of EcommerceTools.__init__.  Decimal price
literals are written as mkRat n 100 (the exact same rationals as 35.99 etc.)
because mkRat evaluates inside the kernel while the OfScientific literal
does not. -/
def product1 : Product :=
  ⟨"1", chars "Floral Summer Skirt", mkRat 3599 100, chars "Floral", chars "S",
    chars "StoreA", 10, chars "Beautiful floral pattern"⟩

def product2 : Product :=
  ⟨"2", chars "White Athletic Sneakers", mkRat 6599 100, chars "White", chars "8",
    chars "StoreB", 5, chars "Classic white sneakers"⟩

def product3 : Product :=
  ⟨"3", chars "Casual Denim Jacket", 80, chars "Blue", chars "M",
    chars "StoreA", 8, chars "Casual denim jacket"⟩

def product4 : Product :=
  ⟨"4", chars "Cocktail Dress", mkRat 8999 100, chars "Black", chars "S",
    chars "StoreB", 15, chars "Elegant cocktail dress"⟩

def product5 : Product :=
  ⟨"5", chars "Casual Denim Jacket", mkRat 7599 100, chars "Blue", chars "M",
    chars "StoreB", 6, chars "Casual denim jacket"⟩

def product6 : Product :=
  ⟨"6", chars "Casual Denim Jacket", mkRat 8299 100, chars "Blue", chars "M",
    chars "StoreC", 4, chars "Casual denim jacket"⟩

def products : List Product :=
  [product1, product2, product3, product4, product5, product6]

def storePolicies : List (List Char × ReturnPolicy) :=
  [(chars "StoreA", ⟨chars "StoreA", 30, true, "Items must be unworn with tags"⟩),
   (chars "StoreB", ⟨chars "StoreB", 14, false, "Return shipping fee applies"⟩),
   (chars "StoreC", ⟨chars "StoreC", 21, true, "Free returns within 21 days"⟩)]

def promo_codes : List (List Char × ℚ) :=
  [(chars "SAVE10", mkRat 10 100), (chars "SUMMER20", mkRat 20 100)]

/-- Association-list lookup (Python dict read by key). -/
def assocLookup {β : Type} : List (List Char × β) → List Char → Option β
  | [], _ => none
  | (k, v) :: rest, key => if k = key then some v else assocLookup rest key

/-- Python dict assignment d[k] = v: update in place, else append. -/
def dictSet {β : Type} : List (List Char × β) → List Char → β →
    List (List Char × β)
  | [], key, v => [(key, v)]
  | (k, w) :: rest, key, v =>
    if k = key then (k, v) :: rest else (k, w) :: dictSet rest key v

/-- The stopword filter in search_products. -/
def stopWords : List (List Char) :=
  [chars "a", chars "the", chars "in", chars "with", chars "and", chars "or",
   chars "for", chars "to", chars "under"]

/-- Keywords of a search query (lowered words not in the stopword list). -/
def searchKeywords (query : List Char) : List (List Char) :=
  ((splitWS query).map lowerList).filter fun w => !stopWords.contains w

/-- f"{product.name} {product.description} {product.color}".lower() -/
def productText (p : Product) : List Char :=
  lowerList (p.name ++ ' ' :: p.description ++ ' ' :: p.color)

/-- One iteration of the search_products loop: keyword match, then price,
color, size guards (note: the price and color/size guards use Python
truthiness, so max_price = 0 or an empty color/size disables that filter). -/
def productMatches (keywords : List (List Char)) (max_price : Option ℚ)
    (color size : Option (List Char)) (p : Product) : Bool :=
  !(keywords.filter fun k => listContains (productText p) k).isEmpty
  && (if pyTruthyNum max_price then decide (p.price ≤ max_price.getD 0) else true)
  && (if pyTruthyStr color then lowerList (color.getD []) = lowerList p.color else true)
  && (if pyTruthyStr size then lowerList (size.getD []) = lowerList p.size else true)

/-- EcommerceTools.search_products -/
def search_products (query : List Char) (max_price : Option ℚ)
    (color size : Option (List Char)) : List Product :=
  products.filter (productMatches (searchKeywords query) max_price color size)

/-- EcommerceTools.get_shipping_estimate; randint(5, 7) is passed in as the
drawn value randDays, "now" as an ordinal. -/
def get_shipping_estimate (now : Nat) (_product : Product)
    (target_date : Option Nat) (randDays : Nat) : ShippingDetails :=
  let delivery := now + randDays
  { available :=
      match target_date with
      | some t => decide (delivery ≤ t)
      | none => true
    cost := mkRat 599 100
    estimated_days := randDays
    delivery_date := delivery }

/-- EcommerceTools.apply_discount -/
def apply_discount (price : ℚ) (code : List Char) : Option ℚ :=
  match assocLookup promo_codes code with
  | some discount => some (price * (1 - discount))
  | none => none

/-- EcommerceTools.compare_prices -/
def compare_prices (product_name : List Char) : List (List Char × ℚ) :=
  products.foldl
    (fun results p =>
      if listContains (lowerList p.name) (lowerList product_name) then
        dictSet results p.store p.price
      else results)
    []

/-- EcommerceTools.get_return_policy -/
def get_return_policy (store : List Char) : Option ReturnPolicy :=
  assocLookup storePolicies store

/-! ### agent.py: field extractors

Each re.search call is embedded as reSearch over a position matcher built
from the combinators; captures are recovered as the slice between the suffix
where the capture group starts and the suffix where it ends. -/

/-- Run position matchers for a list of patterns in order, first search that
succeeds wins (the for-pattern / break loops of parse_query). -/
def firstCapture : List (List Char → Option (List Char)) → List Char →
    Option (List Char)
  | [], _ => none
  | m :: ms, q =>
    match reSearch m q with
    | some t => some t
    | none => firstCapture ms q

/-- Capture \d+\.?\d* (greedy; pattern-final, so no backtracking arises). -/
def capNum (s : List Char) : Option (List Char) :=
  let ds := s.takeWhile isDigitPy
  if ds.isEmpty then none
  else
    match s.drop ds.length with
    | '.' :: r2 => some (ds ++ '.' :: r2.takeWhile isDigitPy)
    | _ => some ds

/-- Position matcher for LIT\s*\$(\d+\.?\d*): the under / less than /
cheaper than price patterns. -/
def matchLitDollarNumAt (lit : List Char) : List Char → Option (List Char) :=
  pLit lit (pStar isSpacePy (pLit ['$'] capNum))

/-- Position matcher for \$(\d+\.?\d*)\s*or less. -/
def matchOrLessAt : List Char → Option (List Char) :=
  pLit ['$'] fun s1 =>
    (pPlus isDigitPy
        (pAltLits [['.'], []]
          (pStar isDigitPy fun s2 =>
            (pStar isSpacePy (pLit (chars "or less") fun s3 => some s3.length)
                s2).map
              fun _ => s2.length))
        s1).map
      fun n => s1.take (s1.length - n)

/-- Position matcher for the bare \$(\d+\.?\d*)\s* fallback (the trailing
\s* does not affect the capture). -/
def matchBareDollarAt : List Char → Option (List Char) :=
  pLit ['$'] capNum

/-- The ordered price pattern list of ShoppingAssistant.search_patterns. -/
def pricePatternList : List (List Char → Option (List Char)) :=
  [matchLitDollarNumAt (chars "under"),
   matchLitDollarNumAt (chars "less than"),
   matchLitDollarNumAt (chars "cheaper than"),
   matchOrLessAt,
   matchBareDollarAt]

/-- Price extraction loop of parse_query (searches the raw, unlowered query;
float(match.group(1)) on the first pattern that matches). -/
def extract_price (query : List Char) : Option ℚ :=
  (firstCapture pricePatternList query).map pyFloatOfCapture

/-- Capture (\w+) when it is pattern-final. -/
def capWord (s : List Char) : Option (List Char) :=
  let w := s.takeWhile isWordChar
  if w.isEmpty then none else some w

/-- Position matcher for size\s+(\w+). -/
def matchSizeSpAt : List Char → Option (List Char) :=
  pLit (chars "size") (pPlus isSpacePy capWord)

/-- Position matcher for in\s+(\w+)\s+size. -/
def matchInSizeAt : List Char → Option (List Char) :=
  pLit (chars "in") (pPlus isSpacePy fun s2 =>
    (pPlus isWordChar
        (fun s3 =>
          (pPlus isSpacePy (pLit (chars "size") fun s5 => some s5.length)
              s3).map
            fun _ => s3.length)
        s2).map
      fun n => s2.take (s2.length - n))

/-- Position matcher for size:\s*(\w+). -/
def matchSizeColonAt : List Char → Option (List Char) :=
  pLit (chars "size:") (pStar isSpacePy capWord)

/-- Size extraction loop of parse_query (searches query.lower(), result
uppercased). -/
def extract_size (query : List Char) : Option (List Char) :=
  (firstCapture [matchSizeSpAt, matchInSizeAt, matchSizeColonAt]
      (lowerList query)).map
    upperList

/-- The fixed color vocabulary, in iteration order. -/
def colorsList : List (List Char) :=
  [chars "white", chars "black", chars "blue", chars "red", chars "green",
   chars "yellow", chars "floral"]

/-- Word boundary after w in l (w ends in a word character). -/
def boundaryAfter (w l : List Char) : Bool :=
  match (l.drop w.length).head? with
  | none => true
  | some c => !isWordChar c

/-- re.search(\bw\b, l) for a word w that starts and ends with word
characters (all colors do): some occurrence of w preceded by start-of-string
or a non-word character and followed by end-of-string or a non-word
character. -/
def wwAux (w : List Char) : Bool → List Char → Bool
  | _, [] => false
  | prevW, c :: rest =>
    (!prevW && w.isPrefixOf (c :: rest) && boundaryAfter w (c :: rest)) ||
      wwAux w (isWordChar c) rest

def wholeWordSearch (w l : List Char) : Bool := wwAux w false l

/-- The color loop of parse_query: substring test, then whole-word test; a
color that occurs only inside a longer word does not stop the loop. -/
def colorLoop : List (List Char) → List Char → Option (List Char)
  | [], _ => none
  | c :: cs, lq =>
    if listContains lq c then
      if wholeWordSearch c lq then some c else colorLoop cs lq
    else colorLoop cs lq

def extract_color (query : List Char) : Option (List Char) :=
  colorLoop colorsList (lowerList query)

/-! ### Delivery-date extractor -/

def weekdayNames : List (List Char) :=
  [chars "monday", chars "tuesday", chars "wednesday", chars "thursday",
   chars "friday", chars "saturday", chars "sunday"]

/-- The days_map dict of _parse_delivery_date (its keys cover every capture
of the weekday patterns, so the default is never reached). -/
def days_map (w : List Char) : Nat :=
  (assocLookup
      [(chars "monday", 0), (chars "tuesday", 1), (chars "wednesday", 2),
       (chars "thursday", 3), (chars "friday", 4), (chars "saturday", 5),
       (chars "sunday", 6)]
      w).getD 0

/-- Position matcher for by\s*(monday|...|sunday). -/
def matchByWeekdayAt : List Char → Option (List Char) :=
  pLit (chars "by") (pStar isSpacePy (pAltCapture weekdayNames))

/-- Position matcher for before\s*(monday|...|sunday). -/
def matchBeforeWeekdayAt : List Char → Option (List Char) :=
  pLit (chars "before") (pStar isSpacePy (pAltCapture weekdayNames))

/-- Capture (\w+\s*\d+) (pattern-final), with the regex backtracking of the
greedy \w+ against the required trailing \d+. -/
def capWSD (s : List Char) : Option (List Char) :=
  (pPlus isWordChar
      (pStar isSpacePy (pPlus isDigitPy fun s3 => some s3.length)) s).map
    fun n => s.take (s.length - n)

/-- Position matcher for deliver(?:ed|y)?\s*by\s*(\w+\s*\d+). -/
def matchDeliverByAt : List Char → Option (List Char) :=
  pLit (chars "deliver")
    (pAltLits [chars "ed", chars "y", []]
      (pStar isSpacePy (pLit (chars "by") (pStar isSpacePy capWSD))))

/-- Position matcher for arrive\s*by\s*(\w+\s*\d+). -/
def matchArriveByAt : List Char → Option (List Char) :=
  pLit (chars "arrive")
    (pStar isSpacePy (pLit (chars "by") (pStar isSpacePy capWSD)))

def monthNamesLower : List (List Char) :=
  [chars "january", chars "february", chars "march", chars "april",
   chars "may", chars "june", chars "july", chars "august",
   chars "september", chars "october", chars "november", chars "december"]

/-- Match a full month name (%B, case-insensitive; no name is a prefix of
another, so alternation order is irrelevant); returns 1-based month and the
rest of the input. -/
def monthPrefix : List (List Char) → Nat → List Char → Option (Nat × List Char)
  | [], _, _ => none
  | mn :: rest, i, t =>
    match ciPrefixDrop mn t with
    | some r => some (i, r)
    | none => monthPrefix rest (i + 1) t

/-- The %d field of strptime: the whole remaining input must be one of
3[01] | [12]\d | 0[1-9] | [1-9] (the leading-space alternative " [1-9]"
cannot fire after the maximal whitespace munch); anything longer leaves
unconverted data, a ValueError. -/
def parseDayField : List Char → Option Nat
  | [a] => if '1' ≤ a ∧ a ≤ '9' then some (a.toNat - 48) else none
  | [a, b] =>
    if a = '3' ∧ (b = '0' ∨ b = '1') then some (digitsToNat [a, b])
    else if (a = '1' ∨ a = '2') ∧ isDigitPy b then some (digitsToNat [a, b])
    else if a = '0' ∧ '1' ≤ b ∧ b ≤ '9' then some (digitsToNat [a, b])
    else none
  | _ => none

/-- datetime.strptime(t, "%B %d") as (month, day): month name, at least one
whitespace character (format whitespace compiles to \s+), the day field
consuming the rest, then the date constructor's validity check against year
1900 (1900 is not a leap year). Returns none exactly when strptime raises
ValueError. -/
def strptimeMD (t : List Char) : Option (Nat × Nat) :=
  match monthPrefix monthNamesLower 1 t with
  | none => none
  | some (m, r) =>
    let sp := r.takeWhile isSpacePy
    if sp.isEmpty then none
    else
      match parseDayField (r.drop sp.length) with
      | none => none
      | some d => if d ≤ daysInMonth 1900 m then some (m, d) else none

/-- datetime.strptime(t, "%B %d") as an ordinal: the year defaults to 1900. -/
def strptimeBD (t : List Char) : Option Nat :=
  (strptimeMD t).map fun md => toOrdinal 1900 md.1 md.2

/-- days_until computation of the weekday branch: Python (a - b) % 7 is
Int.emod, nonnegative; 0 is bumped to a full week. -/
def weekdayDelta (now target : Nat) : Nat :=
  let current := weekdayOf now
  let du := (((target : Int) - (current : Int)) % 7).toNat
  if du = 0 then 7 else du

/-- _parse_delivery_date: the four date patterns in order.  The captures of
the two weekday patterns are always weekday names, and the captures of the
two explicit patterns always contain a digit and hence are never weekday
names, so the in-loop membership test resolves statically to the branch
nesting below; a strptime failure falls through to the next pattern. -/
def parse_delivery_date (now : Nat) (query : List Char) : Option Nat :=
  let lq := lowerList query
  match reSearch matchByWeekdayAt lq with
  | some w => some (now + weekdayDelta now (days_map w))
  | none =>
    match reSearch matchBeforeWeekdayAt lq with
    | some w => some (now + weekdayDelta now (days_map w))
    | none =>
      match reSearch matchDeliverByAt lq with
      | some t =>
        match strptimeBD t with
        | some d => some d
        | none =>
          match reSearch matchArriveByAt lq with
          | some t2 => strptimeBD t2
          | none => none
      | none =>
        match reSearch matchArriveByAt lq with
        | some t2 => strptimeBD t2
        | none => none

/-- First successful weekday-pattern capture (patterns 1 and 2 in order);
some w exactly when the weekday branch of _parse_delivery_date fires. -/
def weekdayCapture (lq : List Char) : Option (List Char) :=
  match reSearch matchByWeekdayAt lq with
  | some w => some w
  | none => reSearch matchBeforeWeekdayAt lq

/-! ### Product-name extractor -/

/-- Lazy (.*?) up to the first quote character (a dot never matches a
newline, so a newline before the closing quote fails this position);
returns the length of the input remaining after the closing quote. -/
def lazyQuoteEnd : List Char → Option Nat
  | [] => none
  | c :: r =>
    if isQuoteChar c then some r.length
    else if c = '\n' then none
    else lazyQuoteEnd r

/-- Position matcher for [\'\"](.*?)[\'\"]: returns (group 0, group 1). -/
def matchQuoteAt (s : List Char) : Option (List Char × List Char) :=
  match s with
  | [] => none
  | c :: r =>
    if isQuoteChar c then
      (lazyQuoteEnd r).map fun n =>
        (s.take (s.length - n), r.take (r.length - n - 1))
    else none

/-- The capture-terminating alternation
(?:under|\$|in size|with size|color|from|at|\?|$): each branch succeeds
immediately, so the ordered alternation reduces to this disjunction; the
final $ matches at end-of-string or before a sole trailing newline. -/
def boundaryEnd (s : List Char) : Option Nat :=
  if (chars "under").isPrefixOf s ∨ s.head? = some '$' ∨
      (chars "in size").isPrefixOf s ∨ (chars "with size").isPrefixOf s ∨
      (chars "color").isPrefixOf s ∨ (chars "from").isPrefixOf s ∨
      (chars "at").isPrefixOf s ∨ s.head? = some '?' ∨ s = [] ∨ s = ['\n']
  then some s.length
  else none

/-- The lazy capture ([\w\s]+?) followed by the boundary alternation. -/
def capProdName (s : List Char) : Option (List Char) :=
  (pLazyPlus isWordOrSpace boundaryEnd s).map fun n => s.take (s.length - n)

/-- Suffix (?:a|an)?\s*([\w\s]+?)(?:boundary) shared by the first two
product-indicator patterns. -/
def afterOptArticle : List Char → Option (List Char) :=
  pAltLits [chars "a", chars "an", []] (pStar isSpacePy capProdName)

/-- Position matcher for
(?:looking for|find|need|want)\s+(?:a|an)?\s*([\w\s]+?)(?:boundary). -/
def matchTier2AAt : List Char → Option (List Char) :=
  pAltLits [chars "looking for", chars "find", chars "need", chars "want"]
    (pPlus isSpacePy afterOptArticle)

/-- Position matcher for
(?:find|get|show)\s+(?:me\s+)?(?:a|an)?\s*([\w\s]+?)(?:boundary). -/
def matchTier2BAt : List Char → Option (List Char) :=
  pAltLits [chars "find", chars "get", chars "show"]
    (pPlus isSpacePy fun s =>
      (pLit (chars "me") (pPlus isSpacePy afterOptArticle) s).orElse fun _ =>
        afterOptArticle s)

def nounLits : List (List Char) :=
  [chars "skirt", chars "dress", chars "jacket", chars "shoes",
   chars "sneakers", chars "top"]

/-- Continuation after the capture group of the third pattern: \s+ then the
boundary alternation; returns the group-end marker. -/
def afterNounGroup (s2 : List Char) : Option Nat :=
  (pPlus isSpacePy boundaryEnd s2).map fun _ => s2.length

/-- The group ((?:\w+\s+)?(?:skirt|dress|jacket|shoes|sneakers|top)): the
optional adjective branch is tried first, as the regex engine does. -/
def tier2Cgroup (s : List Char) : Option Nat :=
  (pPlus isWordChar (pPlus isSpacePy (pAltLits nounLits afterNounGroup))
      s).orElse
    fun _ => pAltLits nounLits afterNounGroup s

/-- Position matcher for
(?:a|an)?\s*((?:\w+\s+)?(?:skirt|...|top))\s+(?:boundary). -/
def matchTier2CAt : List Char → Option (List Char) :=
  pAltLits [chars "a", chars "an", []]
    (pStar isSpacePy fun s1 =>
      (tier2Cgroup s1).map fun n => s1.take (s1.length - n))

def fillerWords : List (List Char) :=
  [chars "a", chars "an", chars "the", chars "some"]

/-- First filler word matching at this position with a word boundary after
it (the \b before it is the caller's context); returns w.length - 1, the
extra characters to drop beyond the head. -/
def tryFiller : List (List Char) → List Char → Option Nat
  | [], _ => none
  | w :: ws, l =>
    if w.isPrefixOf l && boundaryAfter w l then some (w.length - 1)
    else tryFiller ws l

/-- re.sub(r'\b(a|an|the|some)\b', '', t): scan with the preceding-character
word-ness as \b context; after a removal the context is the last removed
character, a word character. -/
def removeFillersAux (prevW : Bool) (l : List Char) : List Char :=
  match l with
  | [] => []
  | c :: rest =>
    if prevW then c :: removeFillersAux (isWordChar c) rest
    else
      match tryFiller fillerWords (c :: rest) with
      | some n => removeFillersAux true (rest.drop n)
      | none => c :: removeFillersAux (isWordChar c) rest
termination_by l.length
decreasing_by
  all_goals simp
  omega

def removeFillers (l : List Char) : List Char := removeFillersAux false l

/-- group(1).strip(), filler removal, strip() — the cleanup applied to a
tier-2 capture. -/
def cleanProdName (t : List Char) : List Char :=
  stripWS (removeFillers (stripWS t))

/-- The product_indicators loop: search each pattern in order; a capture
that cleans to the empty string is falsy and the loop continues. -/
def tier2Loop : List (List Char → Option (List Char)) → List Char →
    Option (List Char)
  | [], _ => none
  | m :: ms, lq =>
    match reSearch m lq with
    | some g1 =>
      let pn := cleanProdName g1
      if pn.isEmpty then tier2Loop ms lq else some pn
    | none => tier2Loop ms lq

def product_types : List (List Char) :=
  [chars "skirt", chars "dress", chars "jacket", chars "sneakers",
   chars "shoes"]

/-- Position matcher for (\w+)\s+TYPE: the adjective before a product
type. -/
def matchAdjAt (ptype : List Char) (s : List Char) : Option (List Char) :=
  (pPlus isWordChar
      (fun s2 =>
        (pPlus isSpacePy (pLit ptype fun s4 => some s4.length) s2).map
          fun _ => s2.length)
      s).map
    fun n => s.take (s.length - n)

/-- The product_types loop: substring presence, then the adjective search;
f"{adj} {ptype}" or the bare type. -/
def tier3Loop : List (List Char) → List Char → Option (List Char)
  | [], _ => none
  | t :: ts, lq =>
    if listContains lq t then
      match reSearch (matchAdjAt t) lq with
      | some adj => some (adj ++ ' ' :: t)
      | none => some t
    else tier3Loop ts lq

/-- Tiers 2 and 3 of _extract_product_name (both work on query.lower()). -/
def tiers23 (query : List Char) : Option (List Char) :=
  match tier2Loop [matchTier2AAt, matchTier2BAt, matchTier2CAt]
      (lowerList query) with
  | some pn => some pn
  | none => tier3Loop product_types (lowerList query)

/-- _extract_product_name: quoted text is preferred unless the text before
the first occurrence of the whole quoted span (query.find(group 0)) contains
'code' in lower case; otherwise fall through to tiers 2 and 3. -/
def extract_product_name (query : List Char) : Option (List Char) :=
  match reSearch matchQuoteAt query with
  | some (g0, g1) =>
    if listContains (lowerList (pySliceTo query (pyFind query g0)))
        (chars "code")
    then tiers23 query
    else some g1
  | none => tiers23 query

/-! ### Store and discount-code extractors, query classification -/

/-- Position matcher for (?:at|from|in|store)\s+(Store[ABC]) on the raw
query (case-sensitive). -/
def matchStoreAt : List Char → Option (List Char) :=
  pAltLits [chars "at", chars "from", chars "in", chars "store"]
    (pPlus isSpacePy
      (pLit (chars "Store") fun s3 =>
        match s3.head? with
        | some c =>
          if c = 'A' ∨ c = 'B' ∨ c = 'C' then some (chars "Store" ++ [c])
          else none
        | none => none))

def extract_store (query : List Char) : Option (List Char) :=
  reSearch matchStoreAt query

/-- Position matcher for KEYWORD[\'\"]([\w\d]+)[\'\"] with re.IGNORECASE on
the keyword ([\w\d]+ = \w+ is greedy and pattern-determined: a shorter match
would still face a word character, not a quote); the captured token keeps
its original case. -/
def matchDiscountAt (kw : List Char) (s : List Char) : Option (List Char) :=
  match ciPrefixDrop kw s with
  | none => none
  | some s1 =>
    match s1 with
    | [] => none
    | q1 :: s2 =>
      if isQuoteChar q1 then
        let tok := s2.takeWhile isWordChar
        if tok.isEmpty then none
        else
          match (s2.drop tok.length).head? with
          | some q2 => if isQuoteChar q2 then some tok else none
          | none => none
      else none

/-- The discount_patterns loop (three patterns in order). -/
def extract_discount (query : List Char) : Option (List Char) :=
  match reSearch (matchDiscountAt (chars "discount code ")) query with
  | some t => some t
  | none =>
    match reSearch (matchDiscountAt (chars "code ")) query with
    | some t => some t
    | none => reSearch (matchDiscountAt (chars "coupon ")) query

/-- The comparison keyword bucket.  A regex of the form X s? matches some
position iff the literal X does, so better deals? and returns? reduce to
their stems; all bucket patterns are then literal substring searches. -/
def comparisonLits : List (List Char) :=
  [chars "better deal", chars "compare", chars "cheaper", chars "best price",
   chars "lowest price", chars "price difference", chars "price comparison"]

/-- The return keyword bucket (returns? reduced to its stem "return"). -/
def returnLits : List (List Char) :=
  [chars "return policy", chars "can i return", chars "return",
   chars "refund", chars "exchange"]

/-- any(re.search(pattern, query.lower()) for pattern in bucket). -/
def anyBucket (lits : List (List Char)) (lq : List Char) : Bool :=
  lits.any fun p => listContains lq p

/-! ### parse_query and the dispatch / response composition -/

structure ParsedInfo where
  max_price : Option ℚ
  size : Option (List Char)
  color : Option (List Char)
  store : Option (List Char)
  delivery_target : Option Nat
  discount_code : Option (List Char)
  product_name : Option (List Char)
  query_type : String
deriving DecidableEq

/-- ShoppingAssistant.parse_query: all extractors run independently; the
query type tests the comparison bucket first, then the return bucket, with
"search" as the default. -/
def parse_query (now : Nat) (query : List Char) : ParsedInfo :=
  { product_name := extract_product_name query
    max_price := extract_price query
    size := extract_size query
    color := extract_color query
    delivery_target := parse_delivery_date now query
    query_type :=
      if anyBucket comparisonLits (lowerList query) then "comparison"
      else if anyBucket returnLits (lowerList query) then "return"
      else "search"
    store := extract_store query
    discount_code := extract_discount query }

/-- ShoppingAssistant._handle_return_query. -/
def handle_return_query (info : ParsedInfo) : String :=
  let store := info.store.getD []
  match get_return_policy store with
  | some policy =>
    String.mk store ++ " accepts returns within " ++
      toString policy.days_allowed ++ " days. " ++
      (if policy.free_returns then "Returns are free"
       else "Return shipping fee applies") ++ ". " ++ policy.conditions
  | none =>
    "Sorry, I couldn't find return policy information for " ++ String.mk store

/-- Stable insertion step for sorted(..., key = price). -/
def orderedInsertPrice (x : List Char × ℚ) :
    List (List Char × ℚ) → List (List Char × ℚ)
  | [] => [x]
  | y :: ys => if x.2 ≤ y.2 then x :: y :: ys else y :: orderedInsertPrice x ys

/-- sorted(comparisons.items(), key = lambda x: x[1]) — stable ascending. -/
def sortByPrice : List (List Char × ℚ) → List (List Char × ℚ)
  | [] => []
  | x :: xs => orderedInsertPrice x (sortByPrice xs)

/-- ShoppingAssistant._handle_comparison_query.  The loop filter compares
each price against info.max_price with pyLeOpt: when max_price is None the
comparison raises TypeError, so the whole call produces none. -/
def handle_comparison_query (info : ParsedInfo) : Option String :=
  if !pyTruthyStr info.product_name then
    some ("I couldn't determine which product you want to compare. " ++
      "Please specify the product name.")
  else
    let pname := info.product_name.getD []
    let comparisons := compare_prices pname
    if !comparisons.isEmpty then
      (sortByPrice comparisons).foldl
        (fun acc sp => do
          let response ← acc
          let withinBudget ← pyLeOpt sp.2 info.max_price
          pure
            (if withinBudget then
              response ++ "- " ++ String.mk sp.1 ++ ": $" ++ fmt2 sp.2 ++ "\n"
            else response))
        (some ("Here are the prices for the " ++ String.mk pname ++
          " across stores:\n"))
    else
      some ("Sorry, I couldn't find any price comparisons for " ++
        String.mk pname ++ ".")

/-- ShoppingAssistant._format_product_response; randDays is the randint(5,7)
draw made inside get_shipping_estimate.  A discounted price of None or 0.0
is falsy, rendering the not-valid message. -/
def format_product_response (now randDays : Nat) (product : Product)
    (info : ParsedInfo) : String :=
  let base :=
    ["I found a " ++ String.mk product.name ++ " in size " ++
      String.mk product.size ++ " for $" ++ fmt2 product.price ++ " at " ++
      String.mk product.store ++ ".",
     "It's in stock (" ++ toString product.stock ++ " available)."]
  let withShip := base ++
    (match info.delivery_target with
     | none => []
     | some _ =>
       let shipping := get_shipping_estimate now product info.delivery_target
         randDays
       let dateStr := strftimeABd (now + shipping.estimated_days)
       if shipping.available then
         ["It can be delivered by " ++ dateStr ++ " (estimated " ++
           toString shipping.estimated_days ++ " days) for $" ++
           fmt2 shipping.cost ++ " shipping."]
       else
         ["Sorry, we cannot guarantee delivery by your requested date. " ++
           "Estimated delivery would be " ++ dateStr ++ "."])
  let withDisc := withShip ++
    (if pyTruthyStr info.discount_code then
      match apply_discount product.price (info.discount_code.getD []) with
      | some dp =>
        if dp ≠ 0 then
          ["With discount code '" ++ String.mk (info.discount_code.getD [])
            ++ "', the final price would be $" ++ fmt2 dp ++ "."]
        else
          ["The discount code '" ++ String.mk (info.discount_code.getD [])
            ++ "' is not valid."]
      | none =>
        ["The discount code '" ++ String.mk (info.discount_code.getD [])
          ++ "' is not valid."]
    else [])
  String.intercalate " " withDisc

/-- ShoppingAssistant._handle_search_query. -/
def handle_search_query (now randDays : Nat) (info : ParsedInfo) : String :=
  let query :=
    if pyTruthyStr info.product_name then info.product_name.getD [] else []
  let results := search_products query info.max_price info.color info.size
  match results with
  | [] => "I couldn't find any products matching your criteria."
  | p :: _ => format_product_response now randDays p info

/-- ShoppingAssistant.handle_query: dispatch on the parsed record with the
Python truthiness guards; none models an uncaught exception. -/
def handle_query (now randDays : Nat) (query : List Char) : Option String :=
  let info := parse_query now query
  if info.query_type = "return" ∧ pyTruthyStr info.store then
    some (handle_return_query info)
  else if info.query_type = "comparison" ∧ pyTruthyStr info.product_name then
    handle_comparison_query info
  else some (handle_search_query now randDays info)

/-! ### Helper lemmas -/

/-- A whole-word occurrence is in particular a substring occurrence. -/
theorem wwAux_contains (w : List Char) :
    ∀ (l : List Char) (b : Bool), wwAux w b l = true → listContains l w = true := by
  intro l
  induction l with
  | nil => intro b h; simp [wwAux] at h
  | cons c rest ih =>
    intro b h
    rw [wwAux] at h
    simp only [Bool.or_eq_true, Bool.and_eq_true] at h
    rw [listContains]
    simp only [Bool.or_eq_true]
    rcases h with ⟨⟨_, hp⟩, _⟩ | h2
    · exact Or.inl hp
    · exact Or.inr (ih _ h2)

/-- The color loop is first-match over the whole-word predicate: the
substring pretest never rejects a color whose whole-word test succeeds. -/
theorem colorLoop_eq_find (lq : List Char) :
    ∀ cs : List (List Char),
      colorLoop cs lq = cs.find? fun c => wholeWordSearch c lq := by
  intro cs
  induction cs with
  | nil => rfl
  | cons c cs ih =>
    by_cases hw : wholeWordSearch c lq = true
    · have hc : listContains lq c = true := wwAux_contains c lq false hw
      simp [colorLoop, hc, hw, List.find?]
    · have hw' : wholeWordSearch c lq = false := by
        revert hw; cases wholeWordSearch c lq <;> simp
      cases hc : listContains lq c <;>
        simp [colorLoop, hc, hw', List.find?, ih]

/-- pStar hands some suffix to its continuation on success. -/
theorem pStar_inv {α : Type} (cls : Char → Bool) (k : List Char → Option α) :
    ∀ (s : List Char) (w : α), pStar cls k s = some w → ∃ s', k s' = some w := by
  intro s
  induction s with
  | nil => intro w h; exact ⟨[], h⟩
  | cons c rest ih =>
    intro w h
    rw [pStar] at h
    by_cases hc : cls c = true
    · rw [if_pos hc] at h
      cases h1 : pStar cls k rest with
      | some v =>
        rw [h1] at h
        simp [Option.orElse] at h
        exact h ▸ ih v h1
      | none =>
        rw [h1] at h
        simp [Option.orElse] at h
        exact ⟨c :: rest, h⟩
    · rw [if_neg hc] at h
      exact ⟨c :: rest, h⟩

/-- pAltCapture only ever returns one of its alternatives. -/
theorem pAltCapture_mem :
    ∀ (alts : List (List Char)) (s w : List Char),
      pAltCapture alts s = some w → w ∈ alts := by
  intro alts
  induction alts with
  | nil => intro s w h; simp [pAltCapture] at h
  | cons a as ih =>
    intro s w h
    rw [pAltCapture] at h
    by_cases hp : a.isPrefixOf s = true
    · rw [if_pos hp] at h
      cases h
      exact List.mem_cons_self a as
    · rw [if_neg hp] at h
      exact List.mem_cons_of_mem a (ih s w h)

/-- pLit hands some suffix to its continuation on success. -/
theorem pLit_inv {α : Type} (lit : List Char) (k : List Char → Option α)
    (s : List Char) (w : α) (h : pLit lit k s = some w) :
    ∃ s', k s' = some w := by
  rw [pLit] at h
  by_cases hp : lit.isPrefixOf s = true
  · rw [if_pos hp] at h; exact ⟨s.drop lit.length, h⟩
  · rw [if_neg hp] at h; cases h

/-- reSearch succeeds only through its position matcher. -/
theorem reSearch_inv {α : Type} (m : List Char → Option α) :
    ∀ (s : List Char) (w : α), reSearch m s = some w → ∃ s', m s' = some w := by
  intro s
  induction s with
  | nil => intro w h; exact ⟨[], h⟩
  | cons c rest ih =>
    intro w h
    rw [reSearch] at h
    cases h1 : m (c :: rest) with
    | some v =>
      rw [h1] at h
      simp [Option.orElse] at h
      exact ⟨c :: rest, h ▸ h1⟩
    | none =>
      rw [h1] at h
      simp [Option.orElse] at h
      exact ih w h

/-- Any capture of the two weekday patterns is a weekday name. -/
theorem weekdayCapture_mem (lq w : List Char)
    (h : weekdayCapture lq = some w) : w ∈ weekdayNames := by
  rw [weekdayCapture] at h
  have hby : ∀ s v, matchByWeekdayAt s = some v → v ∈ weekdayNames := by
    intro s v hs
    obtain ⟨s1, hs1⟩ := pLit_inv _ _ _ _ hs
    obtain ⟨s2, hs2⟩ := pStar_inv _ _ _ _ hs1
    exact pAltCapture_mem _ _ _ hs2
  have hbefore : ∀ s v, matchBeforeWeekdayAt s = some v → v ∈ weekdayNames := by
    intro s v hs
    obtain ⟨s1, hs1⟩ := pLit_inv _ _ _ _ hs
    obtain ⟨s2, hs2⟩ := pStar_inv _ _ _ _ hs1
    exact pAltCapture_mem _ _ _ hs2
  cases h1 : reSearch matchByWeekdayAt lq with
  | some v =>
    rw [h1] at h
    cases h
    obtain ⟨s', hs'⟩ := reSearch_inv _ _ _ h1
    exact hby s' w hs'
  | none =>
    rw [h1] at h
    obtain ⟨s', hs'⟩ := reSearch_inv _ _ _ h
    exact hbefore s' w hs'

/-- Weekday indices from days_map are below 7. -/
theorem days_map_lt (w : List Char) (h : w ∈ weekdayNames) : days_map w < 7 := by
  simp [weekdayNames] at h
  rcases h with rfl | rfl | rfl | rfl | rfl | rfl | rfl <;> decide

/-- Arithmetic of the weekday branch: the computed offset lands on the
target weekday, within the next 1..7 days, equals the Python mod formula
when today differs from the target, and is a full week otherwise. -/
theorem weekdayDelta_spec (now target : Nat) (ht : target < 7) :
    1 ≤ weekdayDelta now target ∧ weekdayDelta now target ≤ 7 ∧
    weekdayOf (now + weekdayDelta now target) = target ∧
    (weekdayOf now = target → weekdayDelta now target = 7) ∧
    (weekdayOf now ≠ target →
      (weekdayDelta now target : Int) =
        ((target : Int) - (weekdayOf now : Int)) % 7) := by
  simp only [weekdayDelta, weekdayOf]
  have h7 : (0 : Int) < 7 := by norm_num
  have hc : (now + 6) % 7 < 7 := Nat.mod_lt _ (by norm_num)
  have hz0 : 0 ≤ ((target : Int) - (((now + 6) % 7 : Nat) : Int)) % 7 :=
    Int.emod_nonneg _ (by norm_num)
  have hz7 : ((target : Int) - (((now + 6) % 7 : Nat) : Int)) % 7 < 7 :=
    Int.emod_lt_of_pos _ h7
  split
  next hzero => refine ⟨by norm_num, by norm_num, ?_, fun _ => rfl, ?_⟩ <;> omega
  next hnz => refine ⟨by omega, by omega, ?_, fun he => ?_, fun _ => ?_⟩ <;> omega

/-- A product never matches an empty keyword list. -/
theorem productMatches_nil (mp : Option ℚ) (c s : Option (List Char))
    (p : Product) : productMatches [] mp c s p = false := by
  simp [productMatches]

/-- search_products returns nothing when every query word is filtered out. -/
theorem search_products_nil_keywords (q : List Char) (mp : Option ℚ)
    (c s : Option (List Char)) (h : searchKeywords q = []) :
    search_products q mp c s = [] := by
  simp only [search_products, h]
  exact List.filter_eq_nil_iff.mpr fun p _ => by simp [productMatches_nil]

/-! ### Claim theorems -/

/-- C9: apply_discount is a fixed-table lookup: SAVE10 yields price times
0.90, an unknown code (e.g. UNKNOWN) yields none, absence is exactly
non-membership in the table, and a present code c with fraction f yields
price times (1 - f). -/
theorem C9_theorem : ∀ P : ℚ,
    apply_discount P (chars "SAVE10") = some (P * (90 / 100)) ∧
    apply_discount P (chars "UNKNOWN") = none ∧
    (∀ c, apply_discount P c = none ↔ assocLookup promo_codes c = none) ∧
    (∀ c f, assocLookup promo_codes c = some f →
      apply_discount P c = some (P * (1 - f))) := by
  intro P
  refine ⟨?_, ?_, ?_, ?_⟩
  · have h : assocLookup promo_codes (chars "SAVE10") = some (mkRat 10 100) := by
      decide
    simp only [apply_discount, h]
    norm_num [Rat.mkRat_eq_div]
  · have h : assocLookup promo_codes (chars "UNKNOWN") = none := by decide
    simp only [apply_discount, h]
  · intro c
    cases hc : assocLookup promo_codes c <;> simp [apply_discount, hc]
  · intro c f h
    simp only [apply_discount, h]

/-- C9 witness: the theorem applied at price 100 and the SUMMER20 row of the
table. -/
theorem C9_witness :
    apply_discount 100 (chars "SUMMER20") = some (100 * (1 - mkRat 20 100)) :=
  (C9_theorem 100).2.2.2 (chars "SUMMER20") (mkRat 20 100) (by decide)

/-- C4 counterexample: the claim fails at the non-negative ceiling 0.
With max_price = 0 (falsy in Python), search_products "skirt" returns the
Floral Summer Skirt although its price 35.99 exceeds the ceiling 0. -/
theorem C4_counterexample :
    search_products (chars "skirt") (some 0) none none = [product1] ∧
    ¬ (product1.price ≤ (0 : ℚ)) := by
  constructor
  · decide
  · decide

/-- C4 amended: results are always a sublist of the catalog (storage order),
and whenever a positive max_price is given every returned product costs at
most max_price; a ceiling of exactly 0 is falsy and disables the filter. -/
theorem C4_theorem (query : List Char) (mp : Option ℚ)
    (color size : Option (List Char)) :
    List.Sublist (search_products query mp color size) products ∧
    ∀ m : ℚ, mp = some m → 0 < m →
      ∀ p ∈ search_products query mp color size, p.price ≤ m := by
  constructor
  · exact List.filter_sublist _
  · intro m hmp hm p hp
    subst hmp
    simp only [search_products, List.mem_filter] at hp
    have hmatch := hp.2
    simp only [productMatches, Bool.and_eq_true] at hmatch
    have hprice := hmatch.1.1.2
    have htruthy : pyTruthyNum (some m) = true := by
      simp [pyTruthyNum]
      exact ne_of_gt hm
    rw [htruthy, if_pos rfl] at hprice
    simpa using hprice

/-- C4 witness: the amended bound applied at ceiling 100 and the catalog
product found by the query "skirt". -/
theorem C4_witness : product1.price ≤ (100 : ℚ) :=
  (C4_theorem (chars "skirt") (some 100) none none).2 100 rfl (by norm_num)
    product1 (by decide)

/-- C10: a query whose every token is a stopword (in particular the empty
query) yields an empty search result, and the search branch with a falsy
product_name always renders the couldn't-find message, whatever max_price,
color and size were extracted. -/
theorem C10_theorem :
    (∀ (query : List Char) (mp : Option ℚ) (color size : Option (List Char)),
      ((splitWS query).all fun w => stopWords.contains (lowerList w)) = true →
      search_products query mp color size = []) ∧
    (∀ (now randDays : Nat) (info : ParsedInfo),
      pyTruthyStr info.product_name = false →
      handle_search_query now randDays info =
        "I couldn't find any products matching your criteria.") := by
  constructor
  · intro query mp color size h
    apply search_products_nil_keywords
    rw [searchKeywords, List.filter_eq_nil_iff]
    intro a ha
    rw [List.mem_map] at ha
    obtain ⟨w, hw, rfl⟩ := ha
    have := (List.all_eq_true.mp h) w hw
    simp only [Bool.not_eq_true]
    simpa using this
  · intro now randDays info h
    have hs : search_products [] info.max_price info.color info.size = [] :=
      search_products_nil_keywords _ _ _ _ rfl
    simp only [handle_search_query, h, Bool.false_eq_true, if_false]
    rw [hs]

/-- C10 witness: an all-stopword query with every filter present returns
nothing. -/
theorem C10_witness :
    search_products (chars "for the under") (some 10) (some (chars "blue"))
      (some (chars "S")) = [] :=
  C10_theorem.1 _ _ _ _ (by decide)

/-- C1 counterexample: the query "cheaper return" matches both keyword
buckets, yet parse_query classifies it as "comparison", not "return" — the
comparison bucket is evaluated first, contradicting the claimed return-first
priority. -/
theorem C1_counterexample :
    anyBucket comparisonLits (lowerList (chars "cheaper return")) = true ∧
    anyBucket returnLits (lowerList (chars "cheaper return")) = true ∧
    (parse_query (toOrdinal 2026 10 12) (chars "cheaper return")).query_type ≠
      "return" := by
  refine ⟨by decide, by decide, by decide⟩

/-- C1 amended: the classifier evaluates the comparison bucket first: any
comparison-bucket match yields "comparison" (even when the return bucket
also matches); otherwise a return-bucket match yields "return"; otherwise
the type is "search". -/
theorem C1_theorem (now : Nat) (query : List Char) :
    (anyBucket comparisonLits (lowerList query) = true →
      (parse_query now query).query_type = "comparison") ∧
    (anyBucket comparisonLits (lowerList query) = false →
      anyBucket returnLits (lowerList query) = true →
      (parse_query now query).query_type = "return") ∧
    (anyBucket comparisonLits (lowerList query) = false →
      anyBucket returnLits (lowerList query) = false →
      (parse_query now query).query_type = "search") := by
  refine ⟨fun h => ?_, fun h1 h2 => ?_, fun h1 h2 => ?_⟩ <;>
    simp [parse_query, *]

/-- C1 witness: a pure comparison query classifies as "comparison" through
the amended rule. -/
theorem C1_witness :
    (parse_query (toOrdinal 2026 10 12)
        (chars "where is the best price for shoes")).query_type =
      "comparison" :=
  (C1_theorem (toOrdinal 2026 10 12)
      (chars "where is the best price for shoes")).1 (by decide)

/-- C8: when the first quoted span of a query is preceded by text containing
'code' (case-insensitive, per the lowered prefix up to query.find(group 0)),
the quote tier never supplies the product name: the extractor returns
exactly what the phrase-template and known-noun tiers produce. -/
theorem C8_theorem (query g0 g1 : List Char)
    (h1 : reSearch matchQuoteAt query = some (g0, g1))
    (h2 : listContains (lowerList (pySliceTo query (pyFind query g0)))
        (chars "code") = true) :
    extract_product_name query = tiers23 query ∧
    ∀ now, (parse_query now query).product_name = tiers23 query := by
  have he : extract_product_name query = tiers23 query := by
    simp only [extract_product_name, h1, h2, if_true]
  exact ⟨he, fun now => by simp only [parse_query]; exact he⟩

/-- C8 witness: the quoted discount code after the word code is skipped and
the noun tiers return "skirt" instead. -/
theorem C8_witness :
    extract_product_name (chars "apply code 'SAVE10' to get a skirt") =
      tiers23 (chars "apply code 'SAVE10' to get a skirt") :=
  (C8_theorem (chars "apply code 'SAVE10' to get a skirt")
      (chars "'SAVE10'") (chars "SAVE10") (by decide) (by decide)).1

/-- C7: the extracted color is exactly the first vocabulary color (in the
fixed iteration order white, black, blue, red, green, yellow, floral) that
occurs as a whole word in the lowered query; a color occurring only inside
a longer word (blueberry) is never chosen. -/
theorem C7_theorem (now : Nat) (query : List Char) :
    (parse_query now query).color =
      colorsList.find? fun c => wholeWordSearch c (lowerList query) := by
  simp only [parse_query, extract_color]
  exact colorLoop_eq_find (lowerList query) colorsList

/-- Sanity example for C7: "blueberry" alone never yields blue. -/
theorem colorBlueberryExample :
    (parse_query (toOrdinal 2026 10 12) (chars "blueberry sneakers")).color =
      none := by
  decide

/-- C6: the price extractor tries under, less than, cheaper than, or-less
and the bare dollar amount in that fixed order; the first pattern that
matches anywhere wins, and the captured numeral becomes max_price exactly
(float of the capture, an exact rational here).  In particular any query
where the under-pattern matches gets max_price = its captured X. -/
theorem C6_theorem (now : Nat) (query : List Char) :
    (∀ t, reSearch (matchLitDollarNumAt (chars "under")) query = some t →
      (parse_query now query).max_price = some (pyFloatOfCapture t)) ∧
    (∀ t, reSearch (matchLitDollarNumAt (chars "under")) query = none →
      reSearch (matchLitDollarNumAt (chars "less than")) query = some t →
      (parse_query now query).max_price = some (pyFloatOfCapture t)) ∧
    (∀ t, reSearch (matchLitDollarNumAt (chars "under")) query = none →
      reSearch (matchLitDollarNumAt (chars "less than")) query = none →
      reSearch (matchLitDollarNumAt (chars "cheaper than")) query = some t →
      (parse_query now query).max_price = some (pyFloatOfCapture t)) ∧
    (∀ t, reSearch (matchLitDollarNumAt (chars "under")) query = none →
      reSearch (matchLitDollarNumAt (chars "less than")) query = none →
      reSearch (matchLitDollarNumAt (chars "cheaper than")) query = none →
      reSearch matchOrLessAt query = some t →
      (parse_query now query).max_price = some (pyFloatOfCapture t)) ∧
    (∀ t, reSearch (matchLitDollarNumAt (chars "under")) query = none →
      reSearch (matchLitDollarNumAt (chars "less than")) query = none →
      reSearch (matchLitDollarNumAt (chars "cheaper than")) query = none →
      reSearch matchOrLessAt query = none →
      reSearch matchBareDollarAt query = some t →
      (parse_query now query).max_price = some (pyFloatOfCapture t)) ∧
    (reSearch (matchLitDollarNumAt (chars "under")) query = none →
      reSearch (matchLitDollarNumAt (chars "less than")) query = none →
      reSearch (matchLitDollarNumAt (chars "cheaper than")) query = none →
      reSearch matchOrLessAt query = none →
      reSearch matchBareDollarAt query = none →
      (parse_query now query).max_price = none) := by
  refine ⟨fun t h1 => ?_, fun t h1 h2 => ?_, fun t h1 h2 h3 => ?_,
    fun t h1 h2 h3 h4 => ?_, fun t h1 h2 h3 h4 h5 => ?_,
    fun h1 h2 h3 h4 h5 => ?_⟩ <;>
    simp [parse_query, extract_price, pricePatternList, firstCapture, *]

/-- float("140") is exactly 140. -/
theorem pyFloatOfCapture_140 : pyFloatOfCapture (chars "140") = 140 := by
  have h1 : (chars "140").takeWhile isDigitPy = chars "140" := by decide
  have h2 : (chars "140").drop (chars "140").length = [] := by decide
  have h3 : digitsToNat (chars "140") = 140 := by decide
  simp only [pyFloatOfCapture, h1, h2, h3, List.drop_nil, List.takeWhile_nil,
    List.length_nil]
  norm_num [digitsToNat]

/-- C6 witness: "under $140" puts exactly 140.0 into max_price. -/
theorem C6_witness :
    (parse_query (toOrdinal 2026 10 12)
        (chars "Find a floral skirt under $140 in size S")).max_price =
      some (pyFloatOfCapture (chars "140")) ∧
    pyFloatOfCapture (chars "140") = 140 :=
  ⟨(C6_theorem (toOrdinal 2026 10 12)
      (chars "Find a floral skirt under $140 in size S")).1 (chars "140")
      (by decide),
   pyFloatOfCapture_140⟩

/-- C5: a weekday-deadline phrase resolves to now + days_until where
days_until is (target - current) mod 7 bumped to 7 when zero: the result is
1 to 7 days ahead, lands exactly on the target weekday, is a full week away
when today already is that weekday, and matches the Python mod formula
otherwise. -/
theorem C5_theorem (now : Nat) (query w : List Char)
    (h : weekdayCapture (lowerList query) = some w) :
    parse_delivery_date now query =
      some (now + weekdayDelta now (days_map w)) ∧
    1 ≤ weekdayDelta now (days_map w) ∧
    weekdayDelta now (days_map w) ≤ 7 ∧
    weekdayOf (now + weekdayDelta now (days_map w)) = days_map w ∧
    (weekdayOf now = days_map w → weekdayDelta now (days_map w) = 7) ∧
    (weekdayOf now ≠ days_map w →
      (weekdayDelta now (days_map w) : Int) =
        ((days_map w : Int) - (weekdayOf now : Int)) % 7) := by
  have hmem := weekdayCapture_mem _ _ h
  have ht := days_map_lt w hmem
  have hspec := weekdayDelta_spec now (days_map w) ht
  refine ⟨?_, hspec.1, hspec.2.1, hspec.2.2.1, hspec.2.2.2.1, hspec.2.2.2.2⟩
  rw [weekdayCapture] at h
  cases h1 : reSearch matchByWeekdayAt (lowerList query) with
  | some v =>
    rw [h1] at h
    simp only [Option.some.injEq] at h
    subst h
    simp only [parse_delivery_date, h1]
  | none =>
    rw [h1] at h
    have h2 : reSearch matchBeforeWeekdayAt (lowerList query) = some w := h
    simp only [parse_delivery_date, h1, h2]

/-- C5 witness: "arrive by monday" asked on Monday 2026-10-12 resolves
seven days ahead, to the next Monday. -/
theorem C5_witness :
    parse_delivery_date (toOrdinal 2026 10 12) (chars "arrive by monday") =
      some (toOrdinal 2026 10 12 +
        weekdayDelta (toOrdinal 2026 10 12) (days_map (chars "monday"))) ∧
    1 ≤ weekdayDelta (toOrdinal 2026 10 12) (days_map (chars "monday")) ∧
    weekdayDelta (toOrdinal 2026 10 12) (days_map (chars "monday")) ≤ 7 ∧
    weekdayOf (toOrdinal 2026 10 12 +
        weekdayDelta (toOrdinal 2026 10 12) (days_map (chars "monday"))) =
      days_map (chars "monday") ∧
    (weekdayOf (toOrdinal 2026 10 12) = days_map (chars "monday") →
      weekdayDelta (toOrdinal 2026 10 12) (days_map (chars "monday")) = 7) ∧
    (weekdayOf (toOrdinal 2026 10 12) ≠ days_map (chars "monday") →
      (weekdayDelta (toOrdinal 2026 10 12) (days_map (chars "monday")) : Int) =
        ((days_map (chars "monday") : Int) -
          (weekdayOf (toOrdinal 2026 10 12) : Int)) % 7) :=
  C5_theorem (toOrdinal 2026 10 12) (chars "arrive by monday")
    (chars "monday") (by decide)

/-- C3 counterexample: "delivered by december 25" parses to December 25 of
year 1900 (the strptime default year), which is a different calendar date
from December 25 of the parser's current year (2026 at the chosen now). -/
theorem C3_counterexample :
    parse_delivery_date (toOrdinal 2026 10 12)
        (chars "delivered by december 25") =
      some (toOrdinal 1900 12 25) ∧
    toOrdinal 1900 12 25 ≠ toOrdinal 2026 12 25 :=
  ⟨by decide, by decide⟩

/-- C3 amended: with no weekday phrase matched, an explicit date phrase
(deliver-by first, then arrive-by) whose capture strptime-parses as (month,
day) yields the calendar date with that month and day in year 1900 — the
strptime default, not the current year — and when no capture parses, the
result is absent, identical to no date mentioned. -/
theorem C3_theorem (now : Nat) (query : List Char)
    (hw : weekdayCapture (lowerList query) = none) :
    (∀ t md, reSearch matchDeliverByAt (lowerList query) = some t →
      strptimeMD t = some md →
      parse_delivery_date now query = some (toOrdinal 1900 md.1 md.2)) ∧
    (∀ t md,
      (reSearch matchDeliverByAt (lowerList query)).bind strptimeMD = none →
      reSearch matchArriveByAt (lowerList query) = some t →
      strptimeMD t = some md →
      parse_delivery_date now query = some (toOrdinal 1900 md.1 md.2)) ∧
    ((reSearch matchDeliverByAt (lowerList query)).bind strptimeMD = none →
      (reSearch matchArriveByAt (lowerList query)).bind strptimeMD = none →
      parse_delivery_date now query = none) := by
  have h1 : reSearch matchByWeekdayAt (lowerList query) = none := by
    rw [weekdayCapture] at hw
    cases hx : reSearch matchByWeekdayAt (lowerList query) with
    | some v => rw [hx] at hw; simp at hw
    | none => rfl
  have h2 : reSearch matchBeforeWeekdayAt (lowerList query) = none := by
    rw [weekdayCapture, h1] at hw
    exact hw
  refine ⟨fun t md ha hb => ?_, fun t md hn ha hb => ?_, fun hn1 hn2 => ?_⟩
  · have hb' : strptimeBD t = some (toOrdinal 1900 md.1 md.2) := by
      simp [strptimeBD, hb]
    simp only [parse_delivery_date, h1, h2, ha, hb']
  · have hb' : strptimeBD t = some (toOrdinal 1900 md.1 md.2) := by
      simp [strptimeBD, hb]
    cases hd : reSearch matchDeliverByAt (lowerList query) with
    | some t' =>
      rw [hd] at hn
      have hn' : strptimeMD t' = none := hn
      have hbd : strptimeBD t' = none := by simp [strptimeBD, hn']
      simp only [parse_delivery_date, h1, h2, hd, hbd, ha, hb']
    | none => simp only [parse_delivery_date, h1, h2, hd, ha, hb']
  · cases hd : reSearch matchDeliverByAt (lowerList query) with
    | some t' =>
      rw [hd] at hn1
      have hbd : strptimeBD t' = none := by
        simp [strptimeBD]
        exact hn1
      cases ha : reSearch matchArriveByAt (lowerList query) with
      | some t2 =>
        rw [ha] at hn2
        have hbd2 : strptimeBD t2 = none := by
          simp [strptimeBD]
          exact hn2
        simp only [parse_delivery_date, h1, h2, hd, hbd, ha, hbd2]
      | none => simp only [parse_delivery_date, h1, h2, hd, hbd, ha]
    | none =>
      cases ha : reSearch matchArriveByAt (lowerList query) with
      | some t2 =>
        rw [ha] at hn2
        have hbd2 : strptimeBD t2 = none := by
          simp [strptimeBD]
          exact hn2
        simp only [parse_delivery_date, h1, h2, hd, ha, hbd2]
      | none => simp only [parse_delivery_date, h1, h2, hd, ha]

/-- C3 witness: "delivered by march 3" yields 1900-03-03 through the
amended rule. -/
theorem C3_witness :
    parse_delivery_date (toOrdinal 2026 10 12) (chars "delivered by march 3")
      = some (toOrdinal 1900 3 3) :=
  (C3_theorem (toOrdinal 2026 10 12) (chars "delivered by march 3")
      (by decide)).1 (chars "march 3") (3, 3) (by decide) (by decide)

/-- C2: the claim's no-fatal-error promise fails.  A comparison query with
a product name but no parsed max_price reaches the filter price <=
max_price with max_price = None, which raises TypeError (modelled as none);
the same query with an explicit price returns a string normally. -/
theorem C2_theorem :
    handle_query (toOrdinal 2026 10 12) 5
        (chars "Any better deals on a 'casual denim jacket'?") = none ∧
    handle_query (toOrdinal 2026 10 12) 5
        (chars
          "I found a 'casual denim jacket' at $79 on StoreA. Any better deals?")
      ≠ none :=
  ⟨by decide, by decide⟩
